import Mathlib

/-
Verification of the dojobs dispatch engine against its specification.

Shallow embedding of the repository sources:
  src/src/execute.py  — subprocess execution primitive (`execute`)
  src/src/cli.py      — start throttle (`_wait_to_start`), `worker`, `main`
  src/dojobs.py       — historical near-duplicate of cli.py (same `worker` body)

Conventions used throughout:
  * Timestamps and durations are rationals.
  * Python exceptions are modelled as explicit error values; a Lean function
    that is total on its domain models Python code from which no exception
    escapes.
  * The observable effect of stateful code (queue puts, lock operations,
    thread starts) is modelled as an explicit event trace.
-/

namespace Dojobs

/-! ## Print-mode resolution (src/src/execute.py, lines 23-58)

Python: `ExecutePrintMode = enum.Enum('ExecutePrintMode', [...])` and the
mode-defaulting block at the top of `execute`.  The enum member names end in
the word "prefix" in the source; here they are abbreviated with "Pfx". -/

inductive ExecutePrintMode where
  | withTimestampsAndPfx
  | withPfx
  | pureLines
  | noPrinting
  deriving DecidableEq, BEq

/-- Lines 50-53 of execute.py ("For historical reasons"):
if a print prefix is supplied and no mode is given, the mode defaults to
`with_timestamps_and_prefix`; with neither supplied it defaults to
`no_printing`. -/
def selectPrintMode (printPfx : Option String) (printMode : Option ExecutePrintMode) :
    ExecutePrintMode :=
  match printMode, printPfx with
  | some m, _ => m
  | none, some _ => ExecutePrintMode.withTimestampsAndPfx
  | none, none => ExecutePrintMode.noPrinting

/-- Lines 55-57 of execute.py: `print_prefix is None or len(print_prefix) == 0`. -/
def pfxMissing : Option String → Bool
  | none => true
  | some s => s.length == 0

/-- Lines 50-57 of execute.py: the complete mode-resolution logic.  A prefixed
mode whose prefix is missing or empty is downgraded to `pure_lines`. -/
def resolvePrintMode (printPfx : Option String) (printMode : Option ExecutePrintMode) :
    ExecutePrintMode :=
  let m := selectPrintMode printPfx printMode
  if (m == ExecutePrintMode.withPfx || m == ExecutePrintMode.withTimestampsAndPfx)
      && pfxMissing printPfx then
    ExecutePrintMode.pureLines
  else m

/-! ## Stdout line handling (src/src/execute.py, lines 69-70)

`for line in proc.stdout` iterates the text stream split after each newline
(the final chunk, if any, has no newline); `str(line).strip('\n')` removes
newline characters from both ends of each line. -/

/-- Python `str.strip` with argument a newline: drop newline characters from
both ends of a character list. -/
def stripNLChars (l : List Char) : List Char :=
  ((l.dropWhile (· == '\n')).reverse.dropWhile (· == '\n')).reverse

def stripNL (s : String) : String :=
  String.mk (stripNLChars s.data)

/-- Drop one trailing newline, if present (the spec wording: "trailing newline
stripped"). -/
def dropTrailingNLChars (l : List Char) : List Char :=
  if l.getLast? = some '\n' then l.dropLast else l

def dropTrailingNL (s : String) : String :=
  String.mk (dropTrailingNLChars s.data)

/-- Text-mode line iteration: split after each newline, keeping the newline on
each produced line; the accumulator holds the current line reversed. -/
def linesAux : List Char → List Char → List (List Char)
  | acc, [] => if acc.isEmpty then [] else [acc.reverse]
  | acc, c :: rest =>
    if c = '\n' then (acc.reverse ++ ['\n']) :: linesAux [] rest
    else linesAux (c :: acc) rest

/-- The sequence of lines Python reads from `proc.stdout` when the child
writes `s` in total. -/
def linesOf (s : String) : List String :=
  (linesAux [] s.data).map String.mk

/-! ## The execution primitive (src/src/execute.py, lines 63-81)

The child process is parametrised by the data that determines execute's
observable behaviour:
  * `stdoutData`: everything the child writes to stdout;
  * `runtimeBeforeEof`: how long the read loop (line 69) blocks until the
    stdout pipe reaches end-of-file — no timeout applies there;
  * `waitAfterEof`: how long after stdout end-of-file the process keeps
    running; `proc.communicate(timeout=...)` (line 72) waits only this part
    and raises TimeoutExpired when it exceeds the timeout;
  * `exitCode`: the process's real exit status.
A spawn failure (`FileNotFoundError`, line 76: missing executable or missing
working directory) means no child process ever exists.  The commented-out
`check_output` branch (`CalledProcessError`, line 74) is unreachable with
`Popen` and is not modelled. -/

structure ChildRun where
  stdoutData : String
  runtimeBeforeEof : ℚ
  waitAfterEof : ℚ
  exitCode : Int
  deriving DecidableEq

inductive SpawnResult where
  | fails
  | runs (c : ChildRun)
  deriving DecidableEq

/-- What has become of the child process when execute returns:
`reaped true` means it was killed (line 79) then reaped; `reaped false` means
it terminated on its own and was reaped by `communicate`. -/
inductive ChildState where
  | notSpawned
  | reaped (killed : Bool)
  deriving DecidableEq

/-- The condition under which line 72 raises `subprocess.TimeoutExpired`. -/
def timedOut (c : ChildRun) (timeout : Option ℚ) : Prop :=
  match timeout with
  | none => False
  | some t => t < c.waitAfterEof

/-- src/src/execute.py, lines 63-81: the try block and its handlers.
Returns the `(return code, captured lines)` pair together with the final
state of the child process. -/
def execute (spawn : SpawnResult) (timeout : Option ℚ) :
    (Int × List String) × ChildState :=
  match spawn with
  | SpawnResult.fails => ((1, []), ChildState.notSpawned)
  | SpawnResult.runs c =>
    let captured := (linesOf c.stdoutData).map stripNL
    match timeout with
    | none => ((c.exitCode, captured), ChildState.reaped false)
    | some t =>
      if c.waitAfterEof ≤ t then ((c.exitCode, captured), ChildState.reaped false)
      else ((2, []), ChildState.reaped true)

/-! ## Start throttle (src/src/cli.py, lines 12-23; identical in src/dojobs.py)

`_wait_to_start(wait_secs, host, data_lock, lock_data)`:
  * a falsy `wait_secs` (None or 0.0) returns before any lock interaction;
  * otherwise `_get_locked` acquires the registry lock `data_lock`, reads
    `lock_data[host]` (a `defaultdict(threading.Lock)`, creating the gate on
    first use) and releases the registry lock; the per-host gate is then held
    for a `time.sleep(wait_secs)`.
The observable effect is recorded as a trace of lock/sleep operations. -/

inductive ThrottleOp where
  | acqDataLock
  | getGate (host : String)
  | relDataLock
  | acqGate (host : String)
  | sleepFor (w : ℚ)
  | relGate (host : String)
  deriving DecidableEq

def waitToStartOps : Option ℚ → String → List ThrottleOp
  | none, _ => []
  | some w, host =>
    if w = 0 then []
    else [ThrottleOp.acqDataLock, ThrottleOp.getGate host, ThrottleOp.relDataLock,
          ThrottleOp.acqGate host, ThrottleOp.sleepFor w, ThrottleOp.relGate host]

/-! ## Worker (src/src/cli.py, lines 29-49; src/dojobs.py, lines 29-52)

The job queue holds dynamically-typed items: real jobs are `(job_id, job)`
pairs and the shutdown sentinel is the string STOP; `iter(in_queue.get,
'STOP')` stops the loop at the first sentinel, after which the worker
performs no further dequeues. -/

inductive QItem where
  | job (id : Nat) (cmd : String)
  | stop
  deriving DecidableEq

/-- Values stored in the result dictionary the worker pushes. -/
inductive PyVal where
  | int (n : Int)
  | str (s : String)
  | strList (l : List String)
  | time (t : ℚ)
  | dur (d : ℚ)
  deriving DecidableEq

/-- The dictionary literal pushed onto `out_queue` (cli.py lines 40-49,
dojobs.py lines 43-52), as the association list of its keys and values in
source order. -/
def resultDict (jobId : Nat) (job : String) (returnCode : Int) (console : List String)
    (host : String) (startDate finishDate : ℚ) : List (String × PyVal) :=
  [("job_id", PyVal.int jobId),
   ("job", PyVal.str job),
   ("return_code", PyVal.int returnCode),
   ("console", PyVal.strList console),
   ("host", PyVal.str host),
   ("start_date", PyVal.time startDate),
   ("finish_date", PyVal.time finishDate),
   ("wall_time", PyVal.dur (finishDate - startDate))]

/-- The worker loop of src/dojobs.py (where `utils.execute` is imported, so
the call on its line 36 resolves), parametrised by the outcome of each
execute call and by the per-iteration clock readings: `times k` is the pair
of `datetime.now()` values the k-th processed job observes.  It returns the
list of dictionaries pushed onto `out_queue`, one per dequeued real job. -/
def workerRun (host : String) (exec : String → Int × List String)
    (times : Nat → ℚ × ℚ) : Nat → List QItem → List (List (String × PyVal))
  | _, [] => []
  | _, QItem.stop :: _ => []
  | k, QItem.job id cmd :: rest =>
    resultDict id cmd (exec cmd).1 (exec cmd).2 host (times k).1 (times k).2
      :: workerRun host exec times (k + 1) rest

/-- The real jobs a worker dequeues before (and excluding) the first sentinel. -/
def dequeuedJobs : List QItem → List (Nat × String)
  | [] => []
  | QItem.stop :: _ => []
  | QItem.job id cmd :: rest => (id, cmd) :: dequeuedJobs rest

/-- Python exceptions that terminate a thread or the main program. -/
inductive PyError where
  | nameErrorUtils
  | unboundLocalNumJobs
  deriving DecidableEq

/-- The worker loop of src/src/cli.py.  That module imports the execution
primitive as `from . import execute` (line 9) and imports nothing named
`utils` (its imports are argparse, collections, datetime, queue, threading,
time and the relative execute module), yet line 36 evaluates
`utils.execute.execute(job)`.  Evaluating the unbound name raises NameError,
which nothing catches: the first dequeued real job kills the thread before
any dictionary is pushed onto `out_queue`.  The result is the list of pushed
dictionaries, or the escaping exception. -/
def cliWorkerRun : List QItem → Except PyError (List (List (String × PyVal)))
  | [] => Except.ok []
  | QItem.stop :: _ => Except.ok []
  | QItem.job _ _ :: _ => Except.error PyError.nameErrorUtils

/-! ## Dispatcher (src/src/cli.py, lines 125-156)

`main` after argument parsing: submit all jobfile lines (stripped) with
indices from `enumerate`, tracking `num_jobs = job_id + 1` inside the loop
— the Python local `num_jobs` is modelled as an `Option Nat` that the loop
folds over and that is still `none` for an empty jobfile, in which case
`for i in range(num_jobs)` (line 151) raises UnboundLocalError; start
`num` threads per `(host, num)` entry; drain `num_jobs` results; put one
STOP sentinel per started worker.  The trace records the queue and thread
operations main performs, paired with the escaping exception if any. -/

inductive MainEvent where
  | submit (jobId : Nat) (job : String)
  | startWorker (host : String)
  | drainResult
  | putStop
  deriving DecidableEq

/-- Python `str.strip()` with no argument (cli.py line 140): remove
whitespace from both ends of the line. -/
def pyStrip (s : String) : String :=
  String.mk (((s.data.dropWhile Char.isWhitespace).reverse.dropWhile
    Char.isWhitespace).reverse)

def mainRun (jobLines : List String) (workHosts : List (String × Nat)) :
    List MainEvent × Option PyError :=
  let numProcesses := (workHosts.map Prod.snd).sum
  let submits := jobLines.enum.map (fun p => MainEvent.submit p.1 (pyStrip p.2))
  let numJobs := jobLines.enum.foldl (fun _ p => some (p.1 + 1)) (none : Option Nat)
  let starts := workHosts.flatMap (fun hn => List.replicate hn.2 (MainEvent.startWorker hn.1))
  match numJobs with
  | none => (submits ++ starts, some PyError.unboundLocalNumJobs)
  | some n =>
    (submits ++ starts ++ List.replicate n MainEvent.drainResult
       ++ List.replicate numProcesses MainEvent.putStop, none)

/-! ## Timed schedule model for the start throttle

One record per job processed by some worker with a configured pause `w`.
The constraints mirror cli.py lines 18-33 under the idealisation that every
non-blocking step is instantaneous:
  * the worker holds its host gate from `acqTime` while sleeping at least
    `w` (`time.sleep(wait_secs)`, line 23) and records `start_date`
    (line 33) the moment it releases the gate, so the gate is held exactly
    on the interval from `acqTime` to `startTime`;
  * `threading.Lock` mutual exclusion: for two distinct jobs on the same
    host, one acquires the gate only after the other has released it;
  * jobs on different hosts use different gates, so no constraint relates
    them.
-/

structure ThrottledJob where
  host : String
  acqTime : ℚ
  startTime : ℚ
  finishTime : ℚ
  deriving DecidableEq

def validSchedule (w : ℚ) (jobs : List ThrottledJob) : Prop :=
  (∀ j ∈ jobs, j.acqTime + w ≤ j.startTime ∧ j.startTime ≤ j.finishTime) ∧
  ∀ i k : Fin jobs.length, i ≠ k → (jobs.get i).host = (jobs.get k).host →
    (jobs.get i).startTime ≤ (jobs.get k).acqTime ∨
      (jobs.get k).startTime ≤ (jobs.get i).acqTime

/-! ## Helper lemmas about line splitting and newline stripping -/

theorem dropWhile_nl_of_notMem {l : List Char} (h : '\n' ∉ l) :
    l.dropWhile (· == '\n') = l := by
  cases l with
  | nil => rfl
  | cons c t =>
    have hc : ¬(c == '\n') = true := by
      simp only [List.mem_cons, not_or] at h
      simp [beq_iff_eq]
      exact fun e => h.1 e.symm
    simp [List.dropWhile_cons, hc]

theorem mem_of_getLastQ_eq : ∀ {l : List Char} {c : Char}, l.getLast? = some c → c ∈ l := by
  intro l
  induction l with
  | nil => intro c h; simp at h
  | cons a t ih =>
    intro c h
    cases t with
    | nil =>
      simp [List.getLast?] at h
      simp [h]
    | cons b u =>
      rw [List.getLast?_cons_cons] at h
      exact List.mem_cons_of_mem a (ih h)

theorem stripNLChars_of_notMem {l : List Char} (h : '\n' ∉ l) : stripNLChars l = l := by
  have h' : '\n' ∉ l.reverse := by simpa using h
  unfold stripNLChars
  rw [dropWhile_nl_of_notMem h, dropWhile_nl_of_notMem h', List.reverse_reverse]

theorem dropTrailingNLChars_of_notMem {l : List Char} (h : '\n' ∉ l) :
    dropTrailingNLChars l = l := by
  unfold dropTrailingNLChars
  rw [if_neg]
  exact fun hl => h (mem_of_getLastQ_eq hl)

theorem stripNLChars_concat {m : List Char} (h : '\n' ∉ m) :
    stripNLChars (m ++ ['\n']) = m := by
  cases m with
  | nil => rfl
  | cons a t =>
    have h1 : a ≠ '\n' := fun e => h (by simp [e])
    have h2 : '\n' ∉ t := fun e => h (by simp [e])
    have hb : ¬(a == '\n') = true := by simp [beq_iff_eq]; exact fun e => h1 e
    have hnm : '\n' ∉ t.reverse ++ [a] := by
      simp only [List.mem_append, List.mem_reverse, List.mem_singleton, not_or]
      exact ⟨h2, fun e => h1 e.symm⟩
    unfold stripNLChars
    rw [List.cons_append, List.dropWhile_cons, if_neg hb]
    have e2 : (a :: (t ++ ['\n'])).reverse = '\n' :: (t.reverse ++ [a]) := by
      simp
    rw [e2, List.dropWhile_cons, if_pos (by simp), dropWhile_nl_of_notMem hnm]
    simp

theorem dropTrailingNLChars_concat (m : List Char) :
    dropTrailingNLChars (m ++ ['\n']) = m := by
  unfold dropTrailingNLChars
  rw [if_pos (List.getLast?_concat m), List.dropLast_concat]

theorem linesAux_good : ∀ (cs acc : List Char), '\n' ∉ acc →
    ∀ l ∈ linesAux acc cs, stripNLChars l = dropTrailingNLChars l := by
  intro cs
  induction cs with
  | nil =>
    intro acc h l hl
    by_cases ha : acc.isEmpty
    · simp [linesAux, ha] at hl
    · have h' : '\n' ∉ acc.reverse := by simpa using h
      simp [linesAux, ha] at hl
      rw [hl, stripNLChars_of_notMem h', dropTrailingNLChars_of_notMem h']
  | cons c rest ih =>
    intro acc h l hl
    by_cases hc : c = '\n'
    · subst hc
      have h' : '\n' ∉ acc.reverse := by simpa using h
      simp [linesAux] at hl
      rcases hl with heq | hl
      · rw [heq, stripNLChars_concat h', dropTrailingNLChars_concat]
      · exact ih [] (by simp) l hl
    · have h' : '\n' ∉ c :: acc := by
        simp only [List.mem_cons, not_or]
        exact ⟨fun e => hc e.symm, h⟩
      simp only [linesAux, if_neg hc] at hl
      exact ih (c :: acc) h' l hl

theorem map_stripNL_linesOf (s : String) :
    (linesOf s).map stripNL = (linesOf s).map dropTrailingNL := by
  unfold linesOf
  rw [List.map_map, List.map_map]
  apply List.map_congr_left
  intro l hl
  have hg := linesAux_good s.data [] (by simp) l hl
  simp [stripNL, dropTrailingNL, Function.comp, hg]

/-! ## Helper lemmas about the dispatcher trace -/

theorem enumFrom_foldl_some : ∀ (l : List String) (n : Nat) (init : Option Nat), l ≠ [] →
    (List.enumFrom n l).foldl (fun _ p => some (p.1 + 1)) init = some (n + l.length) := by
  intro l
  induction l with
  | nil => intro n init h; exact absurd rfl h
  | cons a t ih =>
    intro n init _
    cases t with
    | nil => simp [List.enumFrom]
    | cons b u =>
      have hrec := ih (n + 1) (some (n + 1)) (by simp)
      rw [show List.enumFrom n (a :: b :: u) = (n, a) :: List.enumFrom (n + 1) (b :: u) from rfl,
        List.foldl_cons, hrec]
      congr 1
      simp only [List.length_cons]
      omega

theorem enum_foldl_some (l : List String) (h : l ≠ []) :
    l.enum.foldl (fun _ p => some (p.1 + 1)) (none : Option Nat) = some l.length := by
  have hrec := enumFrom_foldl_some l 0 none h
  simpa [List.enum] using hrec

theorem enumFrom_map_submit : ∀ (l : List String) (n : Nat),
    (List.enumFrom n l).map (fun p => MainEvent.submit p.1 (pyStrip p.2)) =
      List.zipWith (fun i j => MainEvent.submit i (pyStrip j)) (List.range' n l.length) l := by
  intro l
  induction l with
  | nil => intro n; rfl
  | cons a t ih =>
    intro n
    simp only [List.enumFrom, List.map_cons, List.length_cons, List.range'_succ,
      List.zipWith_cons_cons]
    rw [ih (n + 1)]

theorem enum_map_submit (l : List String) :
    l.enum.map (fun p => MainEvent.submit p.1 (pyStrip p.2)) =
      List.zipWith (fun i j => MainEvent.submit i (pyStrip j)) (List.range l.length) l := by
  have hrec := enumFrom_map_submit l 0
  simpa [List.enum, List.range_eq_range'] using hrec

/-! ## Claim theorems: the execution primitive -/

/-- C3: for every command whose executable or requested working directory does
not exist (Popen raises FileNotFoundError, execute.py line 76), execute
returns exit code 1 with an empty output-line list, for any timeout
configuration; being a total function of the spawn outcome, the model raises
nothing to the caller. -/
theorem execute_launch_failure (timeout : Option ℚ) :
    execute SpawnResult.fails timeout = ((1, []), ChildState.notSpawned) := rfl

/-- C4: the timeout is applied only to `proc.communicate` after the untimed
stdout read loop (execute.py lines 69-72), so a command that holds its stdout
pipe open until it exits — e.g. `sleep 10` with a 1-second timeout: ten
seconds of runtime before stdout end-of-file, none after — runs longer than
the configured timeout yet execute returns its real exit status 0 with empty
output and the child is never killed, contradicting the claimed exit code 2. -/
theorem execute_sleep_outlives_timeout :
    (1 : ℚ) < 10 + 0 ∧
    execute (SpawnResult.runs (ChildRun.mk "" 10 0 0)) (some 1) =
      ((0, []), ChildState.reaped false) := by
  constructor
  · norm_num
  · decide

/-- C5: for every command whose process runs to completion (spawn succeeds
and the timeout, if any, does not expire), execute returns the process's
real exit status together with all lines the process wrote to stdout, in
order, each with its trailing newline stripped, and the child is reaped
without being killed. -/
theorem execute_completion (c : ChildRun) (timeout : Option ℚ) (h : ¬ timedOut c timeout) :
    execute (SpawnResult.runs c) timeout =
      ((c.exitCode, (linesOf c.stdoutData).map dropTrailingNL), ChildState.reaped false) := by
  cases timeout with
  | none => simp [execute, map_stripNL_linesOf]
  | some t =>
    have ht : c.waitAfterEof ≤ t := by simpa [timedOut, not_lt] using h
    simp [execute, ht, map_stripNL_linesOf]

/-- Witness for C5: a command that prints "hello" and exits 0 yields exit
code 0 and output lines ["hello"]. -/
theorem execute_completion_spot :
    execute (SpawnResult.runs (ChildRun.mk "hello\n" 0 0 0)) none =
      ((0, ["hello"]), ChildState.reaped false) := by
  have h := execute_completion (ChildRun.mk "hello\n" 0 0 0) none (by simp [timedOut])
  rw [h]
  decide

/-- C10: a prefixed print mode whose prefix is None or empty is silently
downgraded to pure_lines (execute.py lines 55-57), and a given prefix with no
explicit mode selects with_timestamps_and_prefix (lines 50-51). -/
theorem printMode_rules :
    (∀ (pp : Option String) (m : ExecutePrintMode),
        (m = ExecutePrintMode.withPfx ∨ m = ExecutePrintMode.withTimestampsAndPfx) →
        (pp = none ∨ pp = some "") →
        resolvePrintMode pp (some m) = ExecutePrintMode.pureLines) ∧
    (∀ s : String, selectPrintMode (some s) none = ExecutePrintMode.withTimestampsAndPfx) := by
  constructor
  · rintro pp m (rfl | rfl) (rfl | rfl) <;> rfl
  · intro s; rfl

/-- Witness for C10 at concrete inputs. -/
theorem printMode_rules_spot :
    resolvePrintMode (some "") (some ExecutePrintMode.withPfx) = ExecutePrintMode.pureLines ∧
    selectPrintMode (some "x") none = ExecutePrintMode.withTimestampsAndPfx :=
  ⟨printMode_rules.1 (some "") ExecutePrintMode.withPfx (Or.inl rfl) (Or.inr rfl),
   printMode_rules.2 "x"⟩

/-! ## Claim theorems: the start throttle -/

/-- C6: with a pause that is zero or unset, `_wait_to_start` returns
immediately: its operation trace is empty, so no lock is acquired and the
gate registry is never touched (cli.py lines 20-21). -/
theorem waitToStart_fast_path (w : Option ℚ) (host : String)
    (h : w = none ∨ w = some 0) : waitToStartOps w host = [] := by
  rcases h with rfl | rfl
  · rfl
  · simp [waitToStartOps]

/-- Witness for C6 at a concrete input. -/
theorem waitToStart_fast_path_spot : waitToStartOps (some 0) "host1" = [] :=
  waitToStart_fast_path (some 0) "host1" (Or.inr rfl)

/-- A two-element schedule is valid when each job respects its own sleep and
ordering constraints and the two jobs, if on the same host, have disjoint
gate holds. -/
theorem validSchedule_pair {w : ℚ} {j0 j1 : ThrottledJob}
    (h0 : j0.acqTime + w ≤ j0.startTime ∧ j0.startTime ≤ j0.finishTime)
    (h1 : j1.acqTime + w ≤ j1.startTime ∧ j1.startTime ≤ j1.finishTime)
    (hx : j0.host = j1.host → j0.startTime ≤ j1.acqTime ∨ j1.startTime ≤ j0.acqTime) :
    validSchedule w [j0, j1] := by
  constructor
  · intro j hj
    rcases List.mem_pair.mp hj with rfl | rfl
    · exact h0
    · exact h1
  · intro i k hik hhost
    match i, k with
    | ⟨0, _⟩, ⟨0, _⟩ => exact absurd rfl hik
    | ⟨1, _⟩, ⟨1, _⟩ => exact absurd rfl hik
    | ⟨0, _⟩, ⟨1, _⟩ => exact hx hhost
    | ⟨1, _⟩, ⟨0, _⟩ =>
      rcases hx hhost.symm with hc | hc
      · exact Or.inr hc
      · exact Or.inl hc
    | ⟨n + 2, hn⟩, _ =>
      have h2 : n + 2 < 2 := hn
      omega
    | _, ⟨n + 2, hn⟩ =>
      have h2 : n + 2 < 2 := hn
      omega

/-- A concrete two-job cross-host schedule with pause 1 whose executions
overlap in time. -/
def crossHostSched : List ThrottledJob := [⟨"a", 0, 1, 5⟩, ⟨"b", 0, 1, 5⟩]

theorem crossHostSched_valid : validSchedule 1 crossHostSched :=
  validSchedule_pair ⟨by norm_num, by norm_num⟩ ⟨by norm_num, by norm_num⟩
    (fun h => absurd h (by decide))

/-- C7: in every valid timed schedule with a nonzero pause, two distinct jobs
on the same host record start times at least the pause apart, while a valid
schedule exists in which two jobs on different hosts overlap in time (they
are not serialized against each other). -/
theorem throttle_spacing :
    (∀ (w : ℚ) (jobs : List ThrottledJob), 0 < w → validSchedule w jobs →
        ∀ i k : Fin jobs.length, i ≠ k →
          (jobs.get i).host = (jobs.get k).host →
          w ≤ |(jobs.get k).startTime - (jobs.get i).startTime|) ∧
    (∃ jobs : List ThrottledJob, validSchedule 1 jobs ∧
        ∃ i k : Fin jobs.length,
          (jobs.get i).host ≠ (jobs.get k).host ∧
          (jobs.get i).startTime < (jobs.get k).finishTime ∧
          (jobs.get k).startTime < (jobs.get i).finishTime) := by
  constructor
  · intro w jobs hw hv i k hik hhost
    obtain ⟨h1, h2⟩ := hv
    have hi := h1 (jobs.get i) (jobs.get_mem i.1 i.2)
    have hk := h1 (jobs.get k) (jobs.get_mem k.1 k.2)
    rcases h2 i k hik hhost with hc | hc
    · exact le_abs.mpr (Or.inl (by linarith [hi.1, hk.1]))
    · exact le_abs.mpr (Or.inr (by linarith [hi.1, hk.1]))
  · exact ⟨crossHostSched, crossHostSched_valid, ⟨0, by decide⟩, ⟨1, by decide⟩,
      by decide, show (1 : ℚ) < 5 by norm_num, show (1 : ℚ) < 5 by norm_num⟩

/-- A concrete two-job same-host schedule with pause 1. -/
def sampleHostSched : List ThrottledJob := [⟨"h", 0, 1, 2⟩, ⟨"h", 1, 2, 3⟩]

theorem sampleHostSched_valid : validSchedule 1 sampleHostSched :=
  validSchedule_pair ⟨by norm_num, by norm_num⟩ ⟨by norm_num, by norm_num⟩
    (fun _ => Or.inl (show (1 : ℚ) ≤ 1 by norm_num))

/-- Witness for C7: applying the spacing bound to a concrete valid schedule. -/
theorem throttle_spacing_spot :
    validSchedule 1 sampleHostSched ∧
    (1 : ℚ) ≤ |(sampleHostSched.get ⟨1, by decide⟩).startTime -
        (sampleHostSched.get ⟨0, by decide⟩).startTime| :=
  ⟨sampleHostSched_valid, throttle_spacing.1 1 sampleHostSched (by norm_num)
    sampleHostSched_valid ⟨0, by decide⟩ ⟨1, by decide⟩ (by decide) rfl⟩

/-! ## Claim theorems: the worker -/

/-- C1: in the packaged engine (src/src/cli.py, the `dojobs` entry point),
a worker that dequeues any real (index, command) pair does not push exactly
one result dictionary: evaluating `utils.execute.execute(job)` on line 36
raises NameError because the module never imports `utils`, the thread dies,
and zero dictionaries are pushed for that pair (and for every job still in
the queue), so the submitted job's Result is lost. -/
theorem cliWorker_drops_results (id : Nat) (cmd : String) (rest : List QItem) :
    cliWorkerRun (QItem.job id cmd :: rest) = Except.error PyError.nameErrorUtils := rfl

/-- In the dojobs.py variant of the worker, where the execute call resolves,
the worker pushes exactly one result dictionary per dequeued real pair, in
dequeue order, carrying that pair's job id — no result is lost and none is
duplicated. -/
theorem workerRun_one_dict_per_job (host : String) (exec : String → Int × List String)
    (times : Nat → ℚ × ℚ) :
    ∀ (items : List QItem) (k : Nat),
      (workerRun host exec times k items).map (fun d => d.lookup "job_id") =
        (dequeuedJobs items).map (fun p => some (PyVal.int p.1)) := by
  intro items
  induction items with
  | nil => intro k; rfl
  | cons it rest ih =>
    intro k
    cases it with
    | stop => rfl
    | job id cmd =>
      simp only [workerRun, dequeuedJobs, List.map_cons, ih (k + 1)]
      rfl

/-- C9 counterexample: the result dictionary the worker pushes (cli.py lines
40-49, dojobs.py lines 43-52) does store wall time under its own key
`wall_time`, a third piece of time data beside the two timestamps — here at
start time 2 and finish time 7 the pair ("wall_time", 5) is a stored field. -/
theorem resultDict_stores_wallTime :
    ("wall_time", PyVal.dur 5) ∈ resultDict 0 "true" 0 [] "h" 2 7 := by
  have h5 : (7 : ℚ) - 2 = 5 := by norm_num
  simp [resultDict, h5]

/-- C9 amended: wall time is stored as the `wall_time` field of the Result,
and its value is always derived as finish_time - start_time from the two
recorded timestamps, never measured independently. -/
theorem resultDict_wallTime_derived (jobId : Nat) (job : String) (returnCode : Int)
    (console : List String) (host : String) (s f : ℚ) :
    (resultDict jobId job returnCode console host s f).lookup "wall_time"
        = some (PyVal.dur (f - s)) ∧
    (resultDict jobId job returnCode console host s f).lookup "start_date"
        = some (PyVal.time s) ∧
    (resultDict jobId job returnCode console host s f).lookup "finish_date"
        = some (PyVal.time f) := by
  refine ⟨?_, ?_, ?_⟩ <;> rfl

/-! ## Claim theorems: the dispatcher -/

/-- C2: for the edge case N = 0 the Dispatcher does not drain 0 results and
terminate cleanly: with an empty jobfile the local `num_jobs` is never
assigned (it is set only inside the submission loop, cli.py line 142), so
after starting the configured worker the drain loop's `range(num_jobs)`
(line 151) raises UnboundLocalError; no drain happens, no sentinel is
enqueued, and the started worker is left blocked on the empty job queue. -/
theorem main_empty_jobfile_crashes :
    mainRun [] [("h", 1)] =
      ([MainEvent.startWorker "h"], some PyError.unboundLocalNumJobs) := rfl

/-- C8 counterexample: for an empty jobfile the Dispatcher does not execute
the four phases — it crashes with UnboundLocalError after the submit and
worker-start phases, and no shutdown sentinel is ever enqueued. -/
theorem main_phases_cex :
    (mainRun [] [("a", 2)]).2 = some PyError.unboundLocalNumJobs ∧
    MainEvent.putStop ∉ (mainRun [] [("a", 2)]).1 := by
  constructor
  · rfl
  · decide

/-- C8 amended: for every jobfile yielding at least one job, the Dispatcher
executes exactly the four phases in order: submit all jobs with indices
0, 1, 2, ... in file order (each line stripped), start exactly
sum(worker_count) workers distributed per host specification, drain exactly
num_jobs results, then enqueue exactly sum(worker_count) shutdown
sentinels — and no exception escapes. -/
theorem main_phases (jobLines : List String) (workHosts : List (String × Nat))
    (h : jobLines ≠ []) :
    mainRun jobLines workHosts =
      (List.zipWith (fun i j => MainEvent.submit i (pyStrip j)) (List.range jobLines.length) jobLines
         ++ workHosts.flatMap (fun hn => List.replicate hn.2 (MainEvent.startWorker hn.1))
         ++ List.replicate jobLines.length MainEvent.drainResult
         ++ List.replicate ((workHosts.map Prod.snd).sum) MainEvent.putStop,
       none) := by
  simp only [mainRun]
  rw [enum_foldl_some jobLines h, enum_map_submit jobLines]

/-- Witness for C8 at a concrete jobfile and host configuration. -/
theorem main_phases_spot :
    mainRun ["true", "false "] [("a", 1), ("b", 2)] =
      ([MainEvent.submit 0 "true", MainEvent.submit 1 "false",
        MainEvent.startWorker "a", MainEvent.startWorker "b", MainEvent.startWorker "b",
        MainEvent.drainResult, MainEvent.drainResult,
        MainEvent.putStop, MainEvent.putStop, MainEvent.putStop], none) := by
  have h := main_phases ["true", "false "] [("a", 1), ("b", 2)] (by decide)
  rw [h]
  decide

end Dojobs
